import Mathlib

/-!
Shallow embedding of the ynab-mcp-server core (Go) in Lean 4.

The embedding covers:
* the YNAB data model structs (internal/ynab/models.go);
* the milliunit conversion helpers (MilliunitsToFloat / FloatToMilliunits);
* the resilient HTTP client loop `doRequest` (internal/ynab/client.go),
  modelled as a pure function over a stream of per-attempt outcomes;
* the list-then-scan getters GetPayee / GetAccount / GetCategory;
* the aggregation helpers of internal/tools/aggregations.go
  (parseDate, validateDateRange, aggregateByCategory, aggregateByMonth,
  aggregateByPayee) and the aggregation tool handlers of
  internal/tools/aggregation_tools.go.

Modelling conventions:
* Go `float64` currency arithmetic is modelled at two levels: an
  exact-rational idealization (`MilliunitsToFloat` / `FloatToMilliunits`),
  used by the aggregation embedding whose proved properties do not depend
  on rounding, and a faithful binary64 model (`round64`,
  `MilliunitsToFloat64` / `FloatToMilliunits64`) that rounds every float64
  operation to 53 significant bits, used where rounding is what is at
  issue (the milliunit round-trip claim).  A Go `int64(f)` cast is
  truncation toward zero, modelled by `Int.tdiv` on the
  numerator/denominator of the rational.
* A Go `map[string]*T` together with its in-place pointer updates is
  modelled as an insertion-ordered association list `List (String × T)`
  with lookup / set / adjust / upsert operations.
* `doRequest` performs I/O once per attempt; the embedding receives the
  outcome of attempt `i` from a function `Nat → AttemptOutcome` and returns
  the surfaced result together with the list of backoff sleeps (seconds)
  performed and the number of attempts executed.
-/

set_option autoImplicit false

namespace YnabMCP

/-! ### Association-list model of Go string-keyed maps -/

def mapLookup {α : Type} (m : List (String × α)) (k : String) : Option α :=
  match m with
  | [] => none
  | (k2, v) :: rest => if k2 = k then some v else mapLookup rest k

/-- Go `m[k] = v`: replace the binding if present, otherwise append it. -/
def mapSet {α : Type} (m : List (String × α)) (k : String) (v : α) : List (String × α) :=
  match m with
  | [] => [(k, v)]
  | (k2, v2) :: rest => if k2 = k then (k2, v) :: rest else (k2, v2) :: mapSet rest k v

/-- Go `if p, ok := m[k]; !ok { p = fresh; m[k] = p }; mutate(p)`:
the read-or-create-then-mutate pattern used by the aggregation loops. -/
def mapUpsert {α : Type} (m : List (String × α)) (k : String) (fresh : α) (f : α → α) :
    List (String × α) :=
  match m with
  | [] => [(k, f fresh)]
  | (k2, v) :: rest => if k2 = k then (k2, f v) :: rest else (k2, v) :: mapUpsert rest k fresh f

/-- Mutate the binding of `k` when present; leave the map unchanged otherwise. -/
def mapAdjust {α : Type} (m : List (String × α)) (k : String) (f : α → α) :
    List (String × α) :=
  match m with
  | [] => []
  | (k2, v) :: rest => if k2 = k then (k2, f v) :: rest else (k2, v) :: mapAdjust rest k f

theorem mapLookup_mapSet_self {α : Type} (m : List (String × α)) (k : String) (v : α) :
    mapLookup (mapSet m k v) k = some v := by
  induction m with
  | nil => simp [mapSet, mapLookup]
  | cons hd tl ih =>
    obtain ⟨k2, v2⟩ := hd
    by_cases h : k2 = k <;> simp [mapSet, mapLookup, h, ih]

theorem mapLookup_mapSet_ne {α : Type} (m : List (String × α)) (k k2 : String) (v : α)
    (h : k2 ≠ k) : mapLookup (mapSet m k v) k2 = mapLookup m k2 := by
  have h2 : ¬ k = k2 := fun hk => h hk.symm
  induction m with
  | nil => simp [mapSet, mapLookup, h2]
  | cons hd tl ih =>
    obtain ⟨k3, v3⟩ := hd
    rcases eq_or_ne k3 k with h3 | h3 <;> rcases eq_or_ne k3 k2 with h4 | h4 <;>
      simp_all [mapSet, mapLookup]

theorem mapLookup_mapAdjust_self {α : Type} (m : List (String × α)) (k : String) (f : α → α) :
    mapLookup (mapAdjust m k f) k = (mapLookup m k).map f := by
  induction m with
  | nil => simp [mapAdjust, mapLookup]
  | cons hd tl ih =>
    obtain ⟨k2, v2⟩ := hd
    by_cases h : k2 = k <;> simp [mapAdjust, mapLookup, h, ih]

theorem mapLookup_mapAdjust_ne {α : Type} (m : List (String × α)) (k k2 : String) (f : α → α)
    (h : k2 ≠ k) : mapLookup (mapAdjust m k f) k2 = mapLookup m k2 := by
  induction m with
  | nil => simp [mapAdjust]
  | cons hd tl ih =>
    obtain ⟨k3, v3⟩ := hd
    rcases eq_or_ne k3 k with h3 | h3 <;> rcases eq_or_ne k3 k2 with h4 | h4 <;>
      simp_all [mapAdjust, mapLookup]

theorem mapAdjust_of_lookup_none {α : Type} (m : List (String × α)) (k : String) (f : α → α)
    (h : mapLookup m k = none) : mapAdjust m k f = m := by
  induction m with
  | nil => simp [mapAdjust]
  | cons hd tl ih =>
    obtain ⟨k2, v2⟩ := hd
    by_cases h2 : k2 = k
    · simp [mapLookup, h2] at h
    · simp [mapLookup, h2] at h
      simp [mapAdjust, h2, ih h]

theorem mapLookup_mapUpsert_self {α : Type} (m : List (String × α)) (k : String)
    (fresh : α) (f : α → α) :
    mapLookup (mapUpsert m k fresh f) k = some (f ((mapLookup m k).getD fresh)) := by
  induction m with
  | nil => simp [mapUpsert, mapLookup]
  | cons hd tl ih =>
    obtain ⟨k2, v2⟩ := hd
    by_cases h : k2 = k <;> simp [mapUpsert, mapLookup, h, ih]

theorem mapLookup_mapUpsert_ne {α : Type} (m : List (String × α)) (k k2 : String)
    (fresh : α) (f : α → α) (h : k2 ≠ k) :
    mapLookup (mapUpsert m k fresh f) k2 = mapLookup m k2 := by
  have h2 : ¬ k = k2 := fun hk => h hk.symm
  induction m with
  | nil => simp [mapUpsert, mapLookup, h2]
  | cons hd tl ih =>
    obtain ⟨k3, v3⟩ := hd
    rcases eq_or_ne k3 k with h3 | h3 <;> rcases eq_or_ne k3 k2 with h4 | h4 <;>
      simp_all [mapUpsert, mapLookup]

/-! ### Data model (internal/ynab/models.go) -/

/-- SubTransaction represents a split transaction. -/
structure SubTransaction where
  ID : String
  TransactionID : String
  Amount : Int
  Memo : String
  PayeeID : String
  PayeeName : String
  CategoryID : String
  CategoryName : String
  TransferAccountID : String
  TransferTransactionID : String
  Deleted : Bool
deriving DecidableEq, Repr

/-- Transaction represents a YNAB transaction (amounts in milliunits). -/
structure Transaction where
  ID : String
  Date : String
  Amount : Int
  Memo : String
  Cleared : String
  Approved : Bool
  FlagColor : String
  FlagName : String
  AccountID : String
  AccountName : String
  PayeeID : String
  PayeeName : String
  CategoryID : String
  CategoryName : String
  TransferAccountID : String
  TransferTransactionID : String
  MatchedTransactionID : String
  ImportID : String
  ImportPayeeName : String
  ImportPayeeNameOriginal : String
  DebtTransactionType : String
  Deleted : Bool
  Subtransactions : List SubTransaction
deriving DecidableEq, Repr

/-- Account represents a YNAB account (balances in milliunits). -/
structure Account where
  ID : String
  Name : String
  «Type» : String
  OnBudget : Bool
  Closed : Bool
  Note : String
  Balance : Int
  ClearedBalance : Int
  UnclearedBalance : Int
  TransferPayeeID : String
  DirectImportLinked : Bool
  DirectImportInError : Bool
  Deleted : Bool
deriving DecidableEq, Repr

/-- Payee represents a payee. -/
structure Payee where
  ID : String
  Name : String
  TransferAccountID : String
  Deleted : Bool
deriving DecidableEq, Repr

/-- Category represents a budget category (amounts in milliunits). -/
structure Category where
  ID : String
  CategoryGroupID : String
  CategoryGroupName : String
  Name : String
  Hidden : Bool
  OriginalCategoryGroupID : String
  Note : String
  Budgeted : Int
  Activity : Int
  Balance : Int
  GoalType : String
  GoalDay : Int
  GoalCadence : Int
  GoalCadenceFrequency : Int
  GoalCreationMonth : String
  GoalTarget : Int
  GoalTargetMonth : String
  GoalPercentageComplete : Int
  GoalMonthsToBudget : Int
  GoalUnderFunded : Int
  GoalOverallFunded : Int
  GoalOverallLeft : Int
  Deleted : Bool
deriving DecidableEq, Repr

/-- CategoryGroup represents a group of categories. -/
structure CategoryGroup where
  ID : String
  Name : String
  Hidden : Bool
  Deleted : Bool
  Categories : List Category
deriving DecidableEq, Repr

/-! ### Milliunit conversion helpers (internal/ynab/models.go)

Two levels of modelling are used for the Go float64 arithmetic.

`MilliunitsToFloat` / `FloatToMilliunits` are the exact-arithmetic
idealization: each float64 value is replaced by the exact rational it would
denote with infinitely precise arithmetic.  The aggregation theorems use
this level, where their properties (which transactions reach which bucket,
counts, ordering, an exactly representable balance scenario) do not depend
on rounding.

`MilliunitsToFloat64` / `FloatToMilliunits64` below add the binary64
rounding step (`round64`) of every float64 operation and are the faithful
model whenever rounding itself is at issue — in particular for the
round-trip property, which the rounding breaks (see the C6 theorems).
`int64(f)` truncates toward zero, which on a rational is `Int.tdiv` of the
numerator by the denominator. -/

/-- MilliunitsToFloat converts YNAB milliunits (1/1000 of currency unit) to float:
`float64(milliunits) / 1000.0`, idealized to the exact quotient. -/
def MilliunitsToFloat (milliunits : Int) : ℚ :=
  (milliunits : ℚ) / 1000

/-- Truncation toward zero of a rational, the semantics of a Go `int64(f)` cast. -/
def truncRat (x : ℚ) : Int :=
  Int.tdiv x.num (x.den : Int)

/-- FloatToMilliunits converts float to YNAB milliunits: `int64(amount * 1000)`,
with the product idealized to the exact product. -/
def FloatToMilliunits (amount : ℚ) : Int :=
  truncRat (amount * 1000)

/-! ### Binary64 rounding (the float64 semantics the conversions really use)

A finite IEEE-754 binary64 value is a rational `m * 2^e` with `|m| < 2^53`.
Every float64 operation rounds its exact result to the nearest such value
(ties to even).  `round64` below implements that rounding for rationals in
the normal range by exact integer arithmetic: locate the binade
`[2^E, 2^(E+1))` of `|x|`, scale by `2^(52-E)`, and round the scaled value
to the nearest integer, ties to even.  Overflow and subnormal thresholds
are not modelled; they are unreachable for currency magnitudes. -/

/-- Number of binary digits of `n` (0 for 0), by fuelled halving; the fuel
covers every number below `2^1100`, far beyond the binary64 range. -/
def bitlenAux : Nat → Nat → Nat
  | 0, _ => 0
  | fuel + 1, n => if n = 0 then 0 else bitlenAux fuel (n / 2) + 1

def bitlen (n : Nat) : Nat := bitlenAux 1100 n

/-- Binary64 rounding of the positive rational `p / q`. -/
def round64Pos (p q : Nat) : ℚ :=
  let a := bitlen p
  let b := bitlen q
  let E : Int := if q * 2 ^ a ≤ p * 2 ^ b then (a : Int) - b else (a : Int) - b - 1
  let g : Int := 52 - E
  let N := if 0 ≤ g then p * 2 ^ g.toNat else p
  let D := if 0 ≤ g then q else q * 2 ^ (-g).toNat
  let n := N / D
  let r := N % D
  let m := if 2 * r < D then n else if D < 2 * r then n + 1 else (if n % 2 = 0 then n else n + 1)
  if 0 ≤ g then mkRat (m : Int) (2 ^ g.toNat) else ((m * 2 ^ (-g).toNat : Nat) : ℚ)

/-- Binary64 round-to-nearest-even of a rational (normal range). -/
def round64 (x : ℚ) : ℚ :=
  if x.num < 0 then -round64Pos x.num.natAbs x.den
  else if x.num = 0 then 0
  else round64Pos x.num.natAbs x.den

/-- Exact rational product written through `mkRat`, so that concrete values
reduce inside the kernel; it equals the field product (next lemma). -/
def mulExact (x y : ℚ) : ℚ := mkRat (x.num * y.num) (x.den * y.den)

theorem mulExact_eq (x y : ℚ) : mulExact x y = x * y := by
  rw [mulExact, Rat.mkRat_eq_div]
  rw [show ((x.num * y.num : ℤ) : ℚ) = (x.num : ℚ) * (y.num : ℚ) by push_cast; ring]
  rw [show ((x.den * y.den : ℕ) : ℚ) = (x.den : ℚ) * (y.den : ℚ) by push_cast; ring]
  rw [← div_mul_div_comm, Rat.num_div_den, Rat.num_div_den]

/-- `float64(milliunits) / 1000.0` with real binary64 semantics: the
int64-to-float64 conversion is exact for currency magnitudes (below 2^53)
and the division correctly rounds the exact quotient `milliunits / 1000`. -/
def MilliunitsToFloat64 (milliunits : Int) : ℚ :=
  round64 (mkRat milliunits 1000)

/-- `int64(amount * 1000)` with real binary64 semantics: `1000.0` is exact,
the multiplication correctly rounds the exact product, and the cast
truncates toward zero. -/
def FloatToMilliunits64 (amount : ℚ) : Int :=
  truncRat (round64 (amount * 1000))

/-- Evaluation form of `FloatToMilliunits64` with the product expressed via
`mkRat`, so concrete instances reduce inside the kernel. -/
theorem FloatToMilliunits64_eval (amount : ℚ) :
    FloatToMilliunits64 amount = truncRat (round64 (mulExact amount (mkRat 1000 1))) := by
  rw [FloatToMilliunits64, mulExact_eq]
  norm_num

/-! ### Calendar dates (Go time.Parse with layout "2006-01-02") -/

/-- A parsed calendar date (no time-of-day component). -/
structure Date where
  year : Nat
  month : Nat
  day : Nat
deriving DecidableEq, Repr

def isLeapYear (y : Nat) : Bool :=
  (y % 4 == 0 && y % 100 != 0) || y % 400 == 0

def daysInMonth (y m : Nat) : Nat :=
  if m = 2 then (if isLeapYear y then 29 else 28)
  else if m = 4 ∨ m = 6 ∨ m = 9 ∨ m = 11 then 30
  else 31

def digitVal (c : Char) : Option Nat :=
  if c.isDigit then some (c.toNat - 48) else none

/-- Range checks performed by Go `time.Parse`: month 1..12, day 1..days-in-month. -/
def mkValidDate (y m d : Nat) : Option Date :=
  if 1 ≤ m ∧ m ≤ 12 ∧ 1 ≤ d ∧ d ≤ daysInMonth y m then some ⟨y, m, d⟩ else none

/-- parseDate validates and parses a date string in YYYY-MM-DD format
(aggregations.go).  Go time.Parse with layout "2006-01-02" demands a
four-digit year, two-digit zero-padded month and day, literal dashes, no
trailing input, and in-range month/day values; an empty string is rejected
up front by the Go helper and also fails the format match. -/
def parseDate (s : String) : Option Date :=
  match s.toList with
  | [y1, y2, y3, y4, c1, m1, m2, c2, d1, d2] =>
    if c1 = '-' ∧ c2 = '-' then
      match digitVal y1, digitVal y2, digitVal y3, digitVal y4,
            digitVal m1, digitVal m2, digitVal d1, digitVal d2 with
      | some a, some b, some c, some e, some f, some g, some h, some i =>
        mkValidDate (a * 1000 + b * 100 + c * 10 + e) (f * 10 + g) (h * 10 + i)
      | _, _, _, _, _, _, _, _ => none
    else none
  | _ => none

/-- Days in years `[0, y)` of the proleptic Gregorian calendar. -/
def daysBeforeYear (y : Nat) : Nat :=
  365 * y + (y + 3) / 4 - (y + 99) / 100 + (y + 399) / 400

/-- Days in the months `[1, m)` of year `y`. -/
def daysBeforeMonth (y m : Nat) : Nat :=
  let base :=
    if m ≤ 1 then 0 else if m = 2 then 31 else if m = 3 then 59
    else if m = 4 then 90 else if m = 5 then 120 else if m = 6 then 151
    else if m = 7 then 181 else if m = 8 then 212 else if m = 9 then 243
    else if m = 10 then 273 else if m = 11 then 304 else 334
  if 3 ≤ m ∧ isLeapYear y then base + 1 else base

/-- Absolute day index of a date; Go `time.Time` subtraction and `Before` on
two midnight-UTC dates are determined by this index. -/
def dayNumber (dt : Date) : Nat :=
  daysBeforeYear dt.year + daysBeforeMonth dt.year dt.month + (dt.day - 1)

/-- The four failure conditions of validateDateRange, in check order. -/
inductive DateRangeError where
  | sinceInvalid
  | untilInvalid
  | untilBeforeSince
  | rangeTooLarge
deriving DecidableEq, Repr

/-- validateDateRange checks that dates are valid and range is reasonable
(aggregations.go).  Go compares `until.Before(since)` and then
`until.Sub(since) > 730*24*time.Hour`; on midnight-UTC dates these are the
day-index comparisons below. -/
def validateDateRange (sinceDate untilDate : String) : Option DateRangeError :=
  match parseDate sinceDate with
  | none => some .sinceInvalid
  | some since =>
    match parseDate untilDate with
    | none => some .untilInvalid
    | some untl =>
      if dayNumber untl < dayNumber since then some .untilBeforeSince
      else if 730 < dayNumber untl - dayNumber since then some .rangeTooLarge
      else none

/-- Left-pad the decimal representation of `n` with zeros to `width` digits. -/
def padNum (width n : Nat) : String :=
  let s := toString n
  String.mk (List.replicate (width - s.length) '0') ++ s

/-- getMonthString returns YYYY-MM format for a time (aggregations.go). -/
def getMonthString (dt : Date) : String :=
  padNum 4 dt.year ++ "-" ++ padNum 2 dt.month

/-! ### Aggregation engine (internal/tools/aggregations.go) -/

/-- isTransfer checks if a transaction is a transfer (should be excluded
from spending analysis). -/
def isTransfer (tx : Transaction) : Bool :=
  tx.TransferAccountID != ""

/-- categorySummary holds aggregated data for a category (float fields as ℚ). -/
structure CategorySummaryS where
  CategoryID : String
  CategoryName : String
  CategoryGroupName : String
  TotalOutflow : ℚ
  TotalInflow : ℚ
  Net : ℚ
  TransactionCount : Nat
deriving DecidableEq, Repr

/-- monthSummary holds aggregated data for a month. -/
structure MonthSummaryS where
  Month : String
  TotalOutflow : ℚ
  TotalInflow : ℚ
  Net : ℚ
  TransactionCount : Nat
deriving DecidableEq, Repr

/-- payeeSummary holds aggregated data for a payee. -/
structure PayeeSummaryS where
  PayeeID : String
  PayeeName : String
  TotalOutflow : ℚ
  TotalInflow : ℚ
  Net : ℚ
  TransactionCount : Nat
deriving DecidableEq, Repr

/-- accountBalance holds account balance information. -/
structure AccountBalanceS where
  AccountID : String
  AccountName : String
  AccountType : String
  OnBudget : Bool
  Closed : Bool
  ClearedBalance : ℚ
  UnclearedBalance : ℚ
  CurrentBalance : ℚ
deriving DecidableEq, Repr

/-- The shared accumulation step: outflows are stored as positive magnitudes,
inflows as-is, net is the signed sum, and the count advances by one. -/
def accumulateCategory (amount : ℚ) (s : CategorySummaryS) : CategorySummaryS :=
  { s with
    TotalOutflow := if amount < 0 then s.TotalOutflow + (-amount) else s.TotalOutflow
    TotalInflow := if amount < 0 then s.TotalInflow else s.TotalInflow + amount
    Net := s.Net + amount
    TransactionCount := s.TransactionCount + 1 }

def accumulateMonth (amount : ℚ) (s : MonthSummaryS) : MonthSummaryS :=
  { s with
    TotalOutflow := if amount < 0 then s.TotalOutflow + (-amount) else s.TotalOutflow
    TotalInflow := if amount < 0 then s.TotalInflow else s.TotalInflow + amount
    Net := s.Net + amount
    TransactionCount := s.TransactionCount + 1 }

def accumulatePayee (amount : ℚ) (s : PayeeSummaryS) : PayeeSummaryS :=
  { s with
    TotalOutflow := if amount < 0 then s.TotalOutflow + (-amount) else s.TotalOutflow
    TotalInflow := if amount < 0 then s.TotalInflow else s.TotalInflow + amount
    Net := s.Net + amount
    TransactionCount := s.TransactionCount + 1 }

/-- One iteration of the aggregateByCategory loop body. -/
def categoryStep (summaries : List (String × CategorySummaryS)) (tx : Transaction) :
    List (String × CategorySummaryS) :=
  if isTransfer tx then summaries
  else if tx.Deleted then summaries
  else
    let categoryID := if tx.CategoryID = "" then "uncategorized" else tx.CategoryID
    let fresh : CategorySummaryS :=
      { CategoryID := categoryID
        CategoryName := if categoryID = "uncategorized" then "Uncategorized" else tx.CategoryName
        CategoryGroupName := ""
        TotalOutflow := 0
        TotalInflow := 0
        Net := 0
        TransactionCount := 0 }
    mapUpsert summaries categoryID fresh (accumulateCategory (MilliunitsToFloat tx.Amount))

/-- aggregateByCategory groups transactions by category and sums amounts. -/
def aggregateByCategory (transactions : List Transaction) :
    List (String × CategorySummaryS) :=
  transactions.foldl categoryStep []

/-- Zero-valued month bucket created during initialization. -/
def zeroMonthSummary (month : String) : MonthSummaryS :=
  { Month := month, TotalOutflow := 0, TotalInflow := 0, Net := 0, TransactionCount := 0 }

/-- One iteration of the aggregateByMonth transaction loop body: skip
transfers, deleted transactions, unparseable dates, and months outside the
initialized bucket set. -/
def monthStep (summaries : List (String × MonthSummaryS)) (tx : Transaction) :
    List (String × MonthSummaryS) :=
  if isTransfer tx then summaries
  else if tx.Deleted then summaries
  else
    match parseDate tx.Date with
    | none => summaries
    | some dt => mapAdjust summaries (getMonthString dt) (accumulateMonth (MilliunitsToFloat tx.Amount))

/-- aggregateByMonth groups transactions by month and sums amounts; all
supplied months are initialized to zero buckets first. -/
def aggregateByMonth (transactions : List Transaction) (months : List String) :
    List (String × MonthSummaryS) :=
  let init := months.foldl (fun acc month => mapSet acc month (zeroMonthSummary month)) []
  transactions.foldl monthStep init

/-- One iteration of the aggregateByPayee loop body. -/
def payeeStep (summaries : List (String × PayeeSummaryS)) (tx : Transaction) :
    List (String × PayeeSummaryS) :=
  if isTransfer tx then summaries
  else if tx.Deleted then summaries
  else
    let payeeID := if tx.PayeeID = "" then "no-payee" else tx.PayeeID
    let fresh : PayeeSummaryS :=
      { PayeeID := payeeID
        PayeeName := if payeeID = "no-payee" then "No Payee" else tx.PayeeName
        TotalOutflow := 0
        TotalInflow := 0
        Net := 0
        TransactionCount := 0 }
    mapUpsert summaries payeeID fresh (accumulatePayee (MilliunitsToFloat tx.Amount))

/-- aggregateByPayee groups transactions by payee and sums amounts. -/
def aggregateByPayee (transactions : List Transaction) :
    List (String × PayeeSummaryS) :=
  transactions.foldl payeeStep []

/-! ### Resilient HTTP client (internal/ynab/client.go)

`doRequest` is modelled as a pure function of the outcome of each attempt.
The outcome of attempt `i` (0-based, as in the Go loop counter) is either a
network-level failure of `httpClient.Do`, a failure of `io.ReadAll` on the
response body, or an HTTP response carrying a status code, the result of
unmarshalling the body as an `APIErrorResponse` (`some detail` on unmarshal
success), and whether the body unmarshals into the caller-supplied result. -/

def maxRetries : Nat := 3

inductive AttemptOutcome where
  | netFail
  | readFail
  | resp (status : Nat) (errDetail : Option String) (bodyParses : Bool)
deriving DecidableEq, Repr

/-- The three retryable failure classes recorded in `lastErr`. -/
inductive TransientError where
  | requestFailed
  | readFailed
  | rateLimited
deriving DecidableEq, Repr

/-- The error/success classification surfaced by one `doRequest` call. -/
inductive ReqResult where
  | ok
  | apiError (status : Nat) (detail : String)
  | apiErrorStatus (status : Nat)
  | parseError
  | exhausted (attempts : Nat) (last : Option TransientError)
deriving DecidableEq, Repr

/-- What a single loop iteration does with the outcome of its attempt:
return a terminal result, or record a transient error and continue. -/
inductive StepResult where
  | terminal (r : ReqResult)
  | transient (e : TransientError)
deriving DecidableEq, Repr

/-- The body of one iteration of the `doRequest` loop after the backoff sleep:
`Do` failure and read failure set `lastErr` and continue; a 429 sets
`lastErr` and continues; any other status ≥ 400 returns the parsed error
detail when present and non-empty, otherwise the bare status code; otherwise
the response is successful and, when a result pointer was supplied, the body
must unmarshal. -/
def classifyAttempt (wantResult : Bool) : AttemptOutcome → StepResult
  | .netFail => .transient .requestFailed
  | .readFail => .transient .readFailed
  | .resp status errDetail bodyParses =>
    if status = 429 then .transient .rateLimited
    else if 400 ≤ status then
      match errDetail with
      | some d => if d = "" then .terminal (.apiErrorStatus status) else .terminal (.apiError status d)
      | none => .terminal (.apiErrorStatus status)
    else if wantResult && !bodyParses then .terminal .parseError
    else .terminal .ok

/-- Trace of one `doRequest` call: surfaced result, backoff sleeps performed
(in seconds, in order), and number of attempts executed. -/
structure RunLog where
  result : ReqResult
  sleeps : List Nat
  attempts : Nat
deriving DecidableEq, Repr

/-- The retry loop: `remaining` iterations left, `attempt` is the 0-based Go
loop counter.  Before every attempt but the first the loop sleeps
`2^(attempt-1)` seconds.  When the iterations are exhausted the last
transient error is wrapped with the attempt count `maxRetries`. -/
def runAttempts (outcomes : Nat → AttemptOutcome) (wantResult : Bool) :
    Nat → Nat → Option TransientError → RunLog
  | 0, attempt, lastErr => ⟨.exhausted maxRetries lastErr, [], attempt⟩
  | remaining + 1, attempt, lastErr =>
    let sl : List Nat := if attempt = 0 then [] else [2 ^ (attempt - 1)]
    match classifyAttempt wantResult (outcomes attempt) with
    | .terminal r => ⟨r, sl, attempt + 1⟩
    | .transient e =>
      let rest := runAttempts outcomes wantResult remaining (attempt + 1) (some e)
      ⟨rest.result, sl ++ rest.sleeps, rest.attempts⟩

/-- doRequest executes an HTTP request with retry logic and rate limit
handling (client.go): up to `maxRetries` total attempts. -/
def doRequest (outcomes : Nat → AttemptOutcome) (wantResult : Bool) : RunLog :=
  runAttempts outcomes wantResult maxRetries 0 none

/-! ### List-then-scan getters (accounts.go, categories.go, payees.go) -/

/-- The error taxonomy seen by a get-single caller: either the error surfaced
by the underlying list call (transport / HTTP / retry exhaustion), or the
dedicated not-found error `"<entity> not found: <id>"` carrying the
requested ID. -/
inductive ClientError where
  | fromRequest (r : ReqResult)
  | notFound (entity : String) (id : String)
deriving DecidableEq, Repr

/-- GetPayee returns a single payee by ID (payees.go): list all payees, then
linearly scan for the first ID match. -/
def GetPayee (listResult : Except ClientError (List Payee)) (payeeID : String) :
    Except ClientError Payee :=
  match listResult with
  | .error e => .error e
  | .ok payees =>
    match payees.find? (fun p => p.ID == payeeID) with
    | some p => .ok p
    | none => .error (.notFound "payee" payeeID)

/-- GetAccount returns a single account (accounts.go). -/
def GetAccount (listResult : Except ClientError (List Account)) (accountID : String) :
    Except ClientError Account :=
  match listResult with
  | .error e => .error e
  | .ok accounts =>
    match accounts.find? (fun a => a.ID == accountID) with
    | some a => .ok a
    | none => .error (.notFound "account" accountID)

/-- GetCategory returns a single category by ID (categories.go): search for
the category across all groups, in order, returning the first match. -/
def GetCategory (listResult : Except ClientError (List CategoryGroup)) (categoryID : String) :
    Except ClientError Category :=
  match listResult with
  | .error e => .error e
  | .ok groups =>
    match groups.findSome? (fun g => g.Categories.find? (fun c => c.ID == categoryID)) with
    | some c => .ok c
    | none => .error (.notFound "category" categoryID)

/-! ### Aggregation tool handlers (internal/tools/aggregation_tools.go) -/

/-- Conversion of one account row performed by the get_account_balances
handler. -/
def toAccountBalance (account : Account) : AccountBalanceS :=
  { AccountID := account.ID
    AccountName := account.Name
    AccountType := account.«Type»
    OnBudget := account.OnBudget
    Closed := account.Closed
    ClearedBalance := MilliunitsToFloat account.ClearedBalance
    UnclearedBalance := MilliunitsToFloat account.UnclearedBalance
    CurrentBalance := MilliunitsToFloat account.Balance }

/-- Result payload of the get_account_balances handler. -/
structure BalancesResult where
  accounts : List AccountBalanceS
  totalOnBudget : ℚ
  totalOffBudget : ℚ
  netWorth : ℚ
deriving DecidableEq, Repr

/-- Loop body of the get_account_balances handler: deleted accounts are
skipped entirely; every remaining account is listed; closed accounts are
excluded from the running totals, which are split by the OnBudget flag. -/
def balancesStep (acc : List AccountBalanceS × ℚ × ℚ) (account : Account) :
    List AccountBalanceS × ℚ × ℚ :=
  if account.Deleted then acc
  else
    let balance := toAccountBalance account
    let rows := acc.1 ++ [balance]
    if !account.Closed then
      if account.OnBudget then (rows, acc.2.1 + balance.CurrentBalance, acc.2.2)
      else (rows, acc.2.1, acc.2.2 + balance.CurrentBalance)
    else (rows, acc.2.1, acc.2.2)

/-- NewGetAccountBalancesTool handler core: build the per-account rows and
the on/off-budget totals, with net worth their sum. -/
def getAccountBalances (accounts : List Account) : BalancesResult :=
  let z := accounts.foldl balancesStep ([], 0, 0)
  { accounts := z.1
    totalOnBudget := z.2.1
    totalOffBudget := z.2.2
    netWorth := z.2.1 + z.2.2 }

/-- Descending order on payee total outflow, the `less` function passed to
sort.Slice by the get_payee_summary handler. -/
def payeeOutflowGE (a b : PayeeSummaryS) : Prop :=
  b.TotalOutflow ≤ a.TotalOutflow

instance : DecidableRel payeeOutflowGE := fun a b =>
  inferInstanceAs (Decidable (b.TotalOutflow ≤ a.TotalOutflow))

instance : IsTotal PayeeSummaryS payeeOutflowGE :=
  ⟨fun a b => le_total b.TotalOutflow a.TotalOutflow⟩

instance : IsTrans PayeeSummaryS payeeOutflowGE :=
  ⟨fun _ _ _ h1 h2 => le_trans h2 h1⟩

/-- Descending order on category total outflow used by the
get_spending_by_category handler. -/
def categoryOutflowGE (a b : CategorySummaryS) : Prop :=
  b.TotalOutflow ≤ a.TotalOutflow

instance : DecidableRel categoryOutflowGE := fun a b =>
  inferInstanceAs (Decidable (b.TotalOutflow ≤ a.TotalOutflow))

instance : IsTotal CategorySummaryS categoryOutflowGE :=
  ⟨fun a b => le_total b.TotalOutflow a.TotalOutflow⟩

instance : IsTrans CategorySummaryS categoryOutflowGE :=
  ⟨fun _ _ _ h1 h2 => le_trans h2 h1⟩

/-- Effective top-N of the get_payee_summary handler: `topN := 20`; when a
numeric top_n argument is supplied, `topN = int(value)`, and a value below 1
falls back to 20. -/
def effectiveTopN (topN : Option Int) : Int :=
  match topN with
  | none => 20
  | some t => if t < 1 then 20 else t

/-- Post-fetch pipeline of the get_payee_summary handler: aggregate by
payee, collect the buckets, sort descending by total outflow, and truncate
to the effective top-N.  (In Go the collection order comes from a map
iteration and sort.Slice is unstable; this model fixes the insertion order
and a stable sort, one of the admitted orderings.) -/
def payeeRows (transactions : List Transaction) (topN : Option Int) : List PayeeSummaryS :=
  let payees := (aggregateByPayee transactions).map Prod.snd
  let sorted := List.insertionSort payeeOutflowGE payees
  if (effectiveTopN topN).toNat < sorted.length then sorted.take (effectiveTopN topN).toNat
  else sorted

/-- Filter applied by the category/payee handlers after fetching: keep the
transactions whose date parses and is not after the until date (Go computes
`untilTime, _ := parseDate(untilDate)`, a zero time on failure). -/
def filterToUntil (transactions : List Transaction) (untilDate : String) : List Transaction :=
  let untilTime := (parseDate untilDate).getD ⟨1, 1, 1⟩
  transactions.filter fun tx =>
    match parseDate tx.Date with
    | none => false
    | some dt => decide (dayNumber dt ≤ dayNumber untilTime)

/-- Outcome of the get_spending_by_category handler (error results and the
success payload, JSON formatting elided). -/
inductive CategoryToolOutcome where
  | missingBudgetID
  | missingSinceDate
  | missingUntilDate
  | validationError (e : DateRangeError)
  | fetchError (e : ClientError)
  | payload (categories : List CategorySummaryS) (totalOutflow totalInflow : ℚ)
deriving DecidableEq, Repr

/-- NewGetSpendingByCategoryTool handler: argument checks, date-range
validation, fetch, filter to until_date, aggregation, totals, sort.  The
returned Bool records whether the fetch (the only network call) happened.
An argument is `none` when absent or not a string. -/
def getSpendingByCategory (budgetID sinceDate untilDate : Option String)
    (fetch : Except ClientError (List Transaction)) : CategoryToolOutcome × Bool :=
  match budgetID with
  | none => (.missingBudgetID, false)
  | some b =>
    if b = "" then (.missingBudgetID, false)
    else
      match sinceDate with
      | none => (.missingSinceDate, false)
      | some since =>
        if since = "" then (.missingSinceDate, false)
        else
          match untilDate with
          | none => (.missingUntilDate, false)
          | some untl =>
            if untl = "" then (.missingUntilDate, false)
            else
              match validateDateRange since untl with
              | some e => (.validationError e, false)
              | none =>
                match fetch with
                | .error e => (.fetchError e, true)
                | .ok transactions =>
                  let filtered := filterToUntil transactions untl
                  let summaries := (aggregateByCategory filtered).map Prod.snd
                  let totalOutflow := (summaries.map CategorySummaryS.TotalOutflow).sum
                  let totalInflow := (summaries.map CategorySummaryS.TotalInflow).sum
                  let sorted := List.insertionSort categoryOutflowGE summaries
                  (.payload sorted totalOutflow totalInflow, true)

/-- Outcome of the get_payee_summary handler. -/
inductive PayeeToolOutcome where
  | missingBudgetID
  | missingSinceDate
  | missingUntilDate
  | validationError (e : DateRangeError)
  | fetchError (e : ClientError)
  | payload (payees : List PayeeSummaryS)
deriving DecidableEq, Repr

/-- NewGetPayeeSummaryTool handler: argument checks, date-range validation,
fetch, filter to until_date, then the payeeRows pipeline. -/
def getPayeeSummary (budgetID sinceDate untilDate : Option String) (topN : Option Int)
    (fetch : Except ClientError (List Transaction)) : PayeeToolOutcome × Bool :=
  match budgetID with
  | none => (.missingBudgetID, false)
  | some b =>
    if b = "" then (.missingBudgetID, false)
    else
      match sinceDate with
      | none => (.missingSinceDate, false)
      | some since =>
        if since = "" then (.missingSinceDate, false)
        else
          match untilDate with
          | none => (.missingUntilDate, false)
          | some untl =>
            if untl = "" then (.missingUntilDate, false)
            else
              match validateDateRange since untl with
              | some e => (.validationError e, false)
              | none =>
                match fetch with
                | .error e => (.fetchError e, true)
                | .ok transactions =>
                  (.payload (payeeRows (filterToUntil transactions untl) topN), true)

/-- Ordered month-bucket extraction performed by the get_spending_by_month
handler: `monthData[i] = *summaries[months[i]]` for each supplied month, in
the supplied order (every supplied month is initialized, so lookup cannot
miss; the default is the initialization value). -/
def monthRows (transactions : List Transaction) (months : List String) : List MonthSummaryS :=
  months.map fun mo => (mapLookup (aggregateByMonth transactions months) mo).getD (zeroMonthSummary mo)

/-- Does a transaction contribute to the month bucket `mo`?  It must survive
the transfer/deleted exclusions, have a parseable date, and its date must
truncate to `mo`. -/
def txInMonth (tx : Transaction) (mo : String) : Bool :=
  !isTransfer tx && !tx.Deleted &&
    (match parseDate tx.Date with
     | none => false
     | some dt => getMonthString dt == mo)

/-! ### Shared step lemmas for the aggregation loops -/

theorem isTransfer_eq_true_iff (tx : Transaction) :
    isTransfer tx = true ↔ tx.TransferAccountID ≠ "" := by
  simp [isTransfer, bne_iff_ne]

theorem categoryStep_skip (s : List (String × CategorySummaryS)) (tx : Transaction)
    (h : tx.Deleted = true ∨ tx.TransferAccountID ≠ "") : categoryStep s tx = s := by
  rcases h with h | h
  · by_cases ht : isTransfer tx = true <;> simp [categoryStep, ht, h]
  · simp [categoryStep, (isTransfer_eq_true_iff tx).mpr h]

theorem payeeStep_skip (s : List (String × PayeeSummaryS)) (tx : Transaction)
    (h : tx.Deleted = true ∨ tx.TransferAccountID ≠ "") : payeeStep s tx = s := by
  rcases h with h | h
  · by_cases ht : isTransfer tx = true <;> simp [payeeStep, ht, h]
  · simp [payeeStep, (isTransfer_eq_true_iff tx).mpr h]

theorem monthStep_skip (s : List (String × MonthSummaryS)) (tx : Transaction)
    (h : tx.Deleted = true ∨ tx.TransferAccountID ≠ "") : monthStep s tx = s := by
  rcases h with h | h
  · by_cases ht : isTransfer tx = true <;> simp [monthStep, ht, h]
  · simp [monthStep, (isTransfer_eq_true_iff tx).mpr h]

/-- Deleting one list element whose step is the identity leaves a fold
unchanged. -/
theorem foldl_middle_skip {σ α : Type} (f : σ → α → σ) (x : α) (h : ∀ s, f s x = s)
    (init : σ) (pre post : List α) :
    (pre ++ x :: post).foldl f init = (pre ++ post).foldl f init := by
  simp [List.foldl_append, h]

/-- A fold is invariant under an element-wise rewrite that every step
ignores. -/
theorem foldl_map_invariant {σ α : Type} (f : σ → α → σ) (g : α → α)
    (h : ∀ s a, f s (g a) = f s a) :
    ∀ (l : List α) (init : σ), (l.map g).foldl f init = l.foldl f init := by
  intro l
  induction l with
  | nil => intro init; rfl
  | cons hd tl ih =>
    intro init
    simp only [List.map_cons, List.foldl_cons, h, ih]

/-- A concrete non-transfer, non-deleted transaction used by witnesses. -/
def txTemplate : Transaction :=
  { ID := "t1"
    Date := "2024-01-15"
    Amount := -45670
    Memo := ""
    Cleared := "cleared"
    Approved := true
    FlagColor := ""
    FlagName := ""
    AccountID := "a1"
    AccountName := "Checking"
    PayeeID := "p1"
    PayeeName := "Grocer"
    CategoryID := "c1"
    CategoryName := "Food"
    TransferAccountID := ""
    TransferTransactionID := ""
    MatchedTransactionID := ""
    ImportID := ""
    ImportPayeeName := ""
    ImportPayeeNameOriginal := ""
    DebtTransactionType := ""
    Deleted := false
    Subtransactions := [] }

/-- C1: a transaction that is soft-deleted or has a non-empty
transferAccountID contributes to no bucket of the category, month, or payee
aggregations: removing it from the input leaves every aggregation result
unchanged, hence no bucket's totalOutflow, totalInflow, net, or
transactionCount is affected. -/
theorem C1_excluded_transactions_contribute_nothing
    (pre post : List Transaction) (tx : Transaction) (months : List String)
    (h : tx.Deleted = true ∨ tx.TransferAccountID ≠ "") :
    aggregateByCategory (pre ++ tx :: post) = aggregateByCategory (pre ++ post) ∧
    aggregateByPayee (pre ++ tx :: post) = aggregateByPayee (pre ++ post) ∧
    aggregateByMonth (pre ++ tx :: post) months = aggregateByMonth (pre ++ post) months := by
  refine ⟨?_, ?_, ?_⟩
  · exact foldl_middle_skip categoryStep tx (fun s => categoryStep_skip s tx h) [] pre post
  · exact foldl_middle_skip payeeStep tx (fun s => payeeStep_skip s tx h) [] pre post
  · exact foldl_middle_skip monthStep tx (fun s => monthStep_skip s tx h)
      ((months.foldl (fun acc month => mapSet acc month (zeroMonthSummary month)) [])) pre post

/-- C1 witness: a deleted transaction and a transfer transaction between two
kept ones change nothing in any aggregation. -/
theorem C1_witness :
    aggregateByCategory [txTemplate, { txTemplate with Deleted := true }] =
      aggregateByCategory [txTemplate] ∧
    aggregateByPayee [txTemplate, { txTemplate with TransferAccountID := "a2" }] =
      aggregateByPayee [txTemplate] := by
  constructor
  · exact (C1_excluded_transactions_contribute_nothing [txTemplate] []
      { txTemplate with Deleted := true } [] (Or.inl rfl)).1
  · exact (C1_excluded_transactions_contribute_nothing [txTemplate] []
      { txTemplate with TransferAccountID := "a2" } [] (Or.inr (by decide))).2.1

theorem categoryStep_subs_irrelevant (s : List (String × CategorySummaryS))
    (tx : Transaction) (subs : List SubTransaction) :
    categoryStep s { tx with Subtransactions := subs } = categoryStep s tx := rfl

theorem payeeStep_subs_irrelevant (s : List (String × PayeeSummaryS))
    (tx : Transaction) (subs : List SubTransaction) :
    payeeStep s { tx with Subtransactions := subs } = payeeStep s tx := rfl

theorem monthStep_subs_irrelevant (s : List (String × MonthSummaryS))
    (tx : Transaction) (subs : List SubTransaction) :
    monthStep s { tx with Subtransactions := subs } = monthStep s tx := rfl

/-- C10: the aggregation functions never examine subtransactions.
Rewriting every transaction's subtransaction list arbitrarily changes no
aggregation result, and an included split transaction is attributed in full
to the single bucket chosen by its parent-level categoryID / payeeID (or the
synthetic uncategorized / no-payee bucket when that ID is empty). -/
theorem C10_subtransactions_never_examined
    (txs : List Transaction) (f : Transaction → List SubTransaction) (months : List String) :
    (aggregateByCategory (txs.map fun tx => { tx with Subtransactions := f tx }) =
      aggregateByCategory txs) ∧
    (aggregateByPayee (txs.map fun tx => { tx with Subtransactions := f tx }) =
      aggregateByPayee txs) ∧
    (aggregateByMonth (txs.map fun tx => { tx with Subtransactions := f tx }) months =
      aggregateByMonth txs months) ∧
    (∀ tx : Transaction, isTransfer tx = false → tx.Deleted = false →
      aggregateByCategory [tx] =
        [(if tx.CategoryID = "" then "uncategorized" else tx.CategoryID,
          { CategoryID := if tx.CategoryID = "" then "uncategorized" else tx.CategoryID
            CategoryName :=
              if (if tx.CategoryID = "" then "uncategorized" else tx.CategoryID) = "uncategorized"
              then "Uncategorized" else tx.CategoryName
            CategoryGroupName := ""
            TotalOutflow :=
              if MilliunitsToFloat tx.Amount < 0 then -(MilliunitsToFloat tx.Amount) else 0
            TotalInflow :=
              if MilliunitsToFloat tx.Amount < 0 then 0 else MilliunitsToFloat tx.Amount
            Net := MilliunitsToFloat tx.Amount
            TransactionCount := 1 })] ∧
      aggregateByPayee [tx] =
        [(if tx.PayeeID = "" then "no-payee" else tx.PayeeID,
          { PayeeID := if tx.PayeeID = "" then "no-payee" else tx.PayeeID
            PayeeName :=
              if (if tx.PayeeID = "" then "no-payee" else tx.PayeeID) = "no-payee"
              then "No Payee" else tx.PayeeName
            TotalOutflow :=
              if MilliunitsToFloat tx.Amount < 0 then -(MilliunitsToFloat tx.Amount) else 0
            TotalInflow :=
              if MilliunitsToFloat tx.Amount < 0 then 0 else MilliunitsToFloat tx.Amount
            Net := MilliunitsToFloat tx.Amount
            TransactionCount := 1 })]) := by
  refine ⟨?_, ?_, ?_, ?_⟩
  · exact foldl_map_invariant categoryStep _
      (fun s tx => categoryStep_subs_irrelevant s tx (f tx)) txs []
  · exact foldl_map_invariant payeeStep _
      (fun s tx => payeeStep_subs_irrelevant s tx (f tx)) txs []
  · exact foldl_map_invariant monthStep _
      (fun s tx => monthStep_subs_irrelevant s tx (f tx)) txs _
  · intro tx ht hd
    constructor
    · simp [aggregateByCategory, categoryStep, ht, hd, mapUpsert, accumulateCategory]
    · simp [aggregateByPayee, payeeStep, ht, hd, mapUpsert, accumulatePayee]

/-- C10 witness: a split transaction with two subtransactions in different
categories lands entirely in the parent-level category bucket, and erasing
its splits changes nothing. -/
theorem C10_witness :
    aggregateByCategory [{ txTemplate with Subtransactions :=
      [{ ID := "s1", TransactionID := "t1", Amount := -20000, Memo := "",
         PayeeID := "p2", PayeeName := "Other", CategoryID := "c2", CategoryName := "Fun",
         TransferAccountID := "", TransferTransactionID := "", Deleted := false },
       { ID := "s2", TransactionID := "t1", Amount := -25670, Memo := "",
         PayeeID := "p3", PayeeName := "Third", CategoryID := "c3", CategoryName := "Bills",
         TransferAccountID := "", TransferTransactionID := "", Deleted := false }] }] =
      aggregateByCategory [txTemplate] ∧
    aggregateByCategory [txTemplate] =
      [("c1",
        { CategoryID := "c1", CategoryName := "Food", CategoryGroupName := ""
          TotalOutflow := 4567 / 100, TotalInflow := 0, Net := -(4567 / 100)
          TransactionCount := 1 })] := by
  constructor
  · exact (C10_subtransactions_never_examined [txTemplate]
      (fun _ =>
        [{ ID := "s1", TransactionID := "t1", Amount := -20000, Memo := "",
           PayeeID := "p2", PayeeName := "Other", CategoryID := "c2", CategoryName := "Fun",
           TransferAccountID := "", TransferTransactionID := "", Deleted := false },
         { ID := "s2", TransactionID := "t1", Amount := -25670, Memo := "",
           PayeeID := "p3", PayeeName := "Third", CategoryID := "c3", CategoryName := "Bills",
           TransferAccountID := "", TransferTransactionID := "", Deleted := false }]) []).1
  · have h := ((C10_subtransactions_never_examined [] (fun _ => []) []).2.2.2
      txTemplate rfl rfl).1
    rw [h]
    norm_num [txTemplate, MilliunitsToFloat]
    decide

/-! ### Month-aggregation invariants (for C4) -/

/-- The zero-bucket initialization loop of aggregateByMonth. -/
def initMonths (months : List String) : List (String × MonthSummaryS) :=
  months.foldl (fun acc month => mapSet acc month (zeroMonthSummary month)) []

theorem aggregateByMonth_eq_foldl (transactions : List Transaction) (months : List String) :
    aggregateByMonth transactions months = transactions.foldl monthStep (initMonths months) := rfl

theorem mapLookup_foldl_mapSet_not_mem (months : List String) (mo : String)
    (h : mo ∉ months) :
    ∀ acc : List (String × MonthSummaryS),
      mapLookup (months.foldl (fun acc month => mapSet acc month (zeroMonthSummary month)) acc) mo
        = mapLookup acc mo := by
  induction months with
  | nil => intro acc; rfl
  | cons m ms ih =>
    intro acc
    have hmo : mo ∉ ms := fun hm => h (List.mem_cons_of_mem m hm)
    have hne : mo ≠ m := fun he => h (he ▸ List.mem_cons_self m ms)
    rw [List.foldl_cons, ih hmo, mapLookup_mapSet_ne _ _ _ _ hne]

theorem mapLookup_initMonths_mem (months : List String) (mo : String) (h : mo ∈ months) :
    mapLookup (initMonths months) mo = some (zeroMonthSummary mo) := by
  have main : ∀ (ms : List String) (acc : List (String × MonthSummaryS)), mo ∈ ms →
      mapLookup (ms.foldl (fun acc month => mapSet acc month (zeroMonthSummary month)) acc) mo
        = some (zeroMonthSummary mo) := by
    intro ms
    induction ms with
    | nil => intro acc hm; cases hm
    | cons m2 ms2 ih =>
      intro acc hm
      by_cases hmem : mo ∈ ms2
      · rw [List.foldl_cons]; exact ih _ hmem
      · have he : mo = m2 := by
          rcases List.mem_cons.mp hm with h1 | h1
          · exact h1
          · exact absurd h1 hmem
        subst he
        rw [List.foldl_cons, mapLookup_foldl_mapSet_not_mem ms2 mo hmem,
          mapLookup_mapSet_self]
  exact main months [] h

theorem mapLookup_initMonths_not_mem (months : List String) (mo : String) (h : mo ∉ months) :
    mapLookup (initMonths months) mo = none := by
  rw [initMonths, mapLookup_foldl_mapSet_not_mem months mo h]; rfl

/-- A transaction that does not land in month `mo` leaves the bucket of `mo`
untouched. -/
theorem monthStep_lookup_not_in_month (acc : List (String × MonthSummaryS))
    (tx : Transaction) (mo : String) (h : txInMonth tx mo = false) :
    mapLookup (monthStep acc tx) mo = mapLookup acc mo := by
  by_cases ht : isTransfer tx = true
  · simp [monthStep, ht]
  · by_cases hd : tx.Deleted = true
    · simp [monthStep, ht, hd]
    · cases hp : parseDate tx.Date with
      | none => simp [monthStep, ht, hd, hp]
      | some dt =>
        have hne : mo ≠ getMonthString dt := by
          intro he
          rw [txInMonth, hp] at h
          simp [ht, hd, he] at h
        simp only [monthStep, ht, hd, hp]
        simp only [Bool.false_eq_true, if_false]
        exact mapLookup_mapAdjust_ne _ _ _ _ hne

theorem foldl_monthStep_lookup_not_in_month (txs : List Transaction)
    (mo : String) (h : ∀ tx ∈ txs, txInMonth tx mo = false) :
    ∀ acc, mapLookup (txs.foldl monthStep acc) mo = mapLookup acc mo := by
  induction txs with
  | nil => intro acc; rfl
  | cons tx rest ih =>
    intro acc
    rw [List.foldl_cons,
      ih (fun t htm => h t (List.mem_cons_of_mem tx htm)),
      monthStep_lookup_not_in_month acc tx mo (h tx (List.mem_cons_self tx rest))]

/-- Every binding of the month map keeps its key in its Month field. -/
def monthEntriesOK (acc : List (String × MonthSummaryS)) : Prop :=
  ∀ k s, mapLookup acc k = some s → s.Month = k

theorem monthEntriesOK_init (months : List String) : monthEntriesOK (initMonths months) := by
  have main : ∀ (ms : List String) (acc : List (String × MonthSummaryS)),
      monthEntriesOK acc →
      monthEntriesOK (ms.foldl (fun acc month => mapSet acc month (zeroMonthSummary month)) acc) := by
    intro ms
    induction ms with
    | nil => intro acc hacc; exact hacc
    | cons m2 ms2 ih =>
      intro acc hacc
      rw [List.foldl_cons]
      refine ih _ ?_
      intro k s hk
      by_cases he : k = m2
      · subst he
        rw [mapLookup_mapSet_self] at hk
        cases hk
        rfl
      · rw [mapLookup_mapSet_ne _ _ _ _ he] at hk
        exact hacc k s hk
  exact main months [] (fun k s hk => by cases hk)

theorem monthEntriesOK_step (acc : List (String × MonthSummaryS)) (tx : Transaction)
    (h : monthEntriesOK acc) : monthEntriesOK (monthStep acc tx) := by
  by_cases ht : isTransfer tx = true
  · simpa [monthStep, ht] using h
  · by_cases hd : tx.Deleted = true
    · simpa [monthStep, ht, hd] using h
    · cases hp : parseDate tx.Date with
      | none => simpa [monthStep, ht, hd, hp] using h
      | some dt =>
        intro k s hk
        simp only [monthStep, ht, hd, hp, Bool.false_eq_true, if_false] at hk
        by_cases he : k = getMonthString dt
        · subst he
          rw [mapLookup_mapAdjust_self] at hk
          cases ho : mapLookup acc (getMonthString dt) with
          | none => rw [ho] at hk; cases hk
          | some s0 =>
            rw [ho] at hk
            cases hk
            have := h _ _ ho
            simpa [accumulateMonth] using this
        · rw [mapLookup_mapAdjust_ne _ _ _ _ he] at hk
          exact h k s hk

theorem monthEntriesOK_agg (transactions : List Transaction) (months : List String) :
    monthEntriesOK (aggregateByMonth transactions months) := by
  rw [aggregateByMonth_eq_foldl]
  have main : ∀ (txs : List Transaction) (acc : List (String × MonthSummaryS)),
      monthEntriesOK acc → monthEntriesOK (txs.foldl monthStep acc) := by
    intro txs
    induction txs with
    | nil => intro acc hacc; exact hacc
    | cons tx rest ih =>
      intro acc hacc
      rw [List.foldl_cons]
      exact ih _ (monthEntriesOK_step acc tx hacc)
  exact main transactions _ (monthEntriesOK_init months)

/-- The month map never acquires a key outside the supplied month list. -/
def monthKeysIn (acc : List (String × MonthSummaryS)) (months : List String) : Prop :=
  ∀ k, k ∉ months → mapLookup acc k = none

theorem monthKeysIn_step (acc : List (String × MonthSummaryS)) (months : List String)
    (tx : Transaction) (h : monthKeysIn acc months) : monthKeysIn (monthStep acc tx) months := by
  by_cases ht : isTransfer tx = true
  · simpa [monthStep, ht] using h
  · by_cases hd : tx.Deleted = true
    · simpa [monthStep, ht, hd] using h
    · cases hp : parseDate tx.Date with
      | none => simpa [monthStep, ht, hd, hp] using h
      | some dt =>
        intro k hk
        simp only [monthStep, ht, hd, hp, Bool.false_eq_true, if_false]
        by_cases he : k = getMonthString dt
        · subst he
          rw [mapLookup_mapAdjust_self, h _ hk]
          rfl
        · rw [mapLookup_mapAdjust_ne _ _ _ _ he]
          exact h k hk

theorem monthKeysIn_foldl (txs : List Transaction) (months : List String) :
    ∀ acc, monthKeysIn acc months → monthKeysIn (txs.foldl monthStep acc) months := by
  induction txs with
  | nil => intro acc hacc; exact hacc
  | cons tx rest ih =>
    intro acc hacc
    rw [List.foldl_cons]
    exact ih _ (monthKeysIn_step acc months tx hacc)

/-- A transaction whose date is unparseable, or whose month is outside the
initialized key set, is a no-op for the month fold. -/
theorem monthStep_skipped (acc : List (String × MonthSummaryS)) (months : List String)
    (tx : Transaction) (hacc : monthKeysIn acc months)
    (h : parseDate tx.Date = none ∨ ∀ dt, parseDate tx.Date = some dt → getMonthString dt ∉ months) :
    monthStep acc tx = acc := by
  by_cases ht : isTransfer tx = true
  · simp [monthStep, ht]
  · by_cases hd : tx.Deleted = true
    · simp [monthStep, ht, hd]
    · cases hp : parseDate tx.Date with
      | none => simp [monthStep, ht, hd, hp]
      | some dt =>
        rcases h with h | h
        · rw [hp] at h; cases h
        · have hout := h dt hp
          simp only [monthStep, ht, hd, hp, Bool.false_eq_true, if_false]
          exact mapAdjust_of_lookup_none _ _ _ (hacc _ hout)

/-- C4: month aggregation yields exactly one bucket per supplied month, in
the supplied order, zero-valued when no transaction lands in that month; a
transaction with an unparseable date, or whose month is outside the supplied
list, is silently dropped without affecting any bucket. -/
theorem C4_month_buckets (txs : List Transaction) (months : List String) :
    (monthRows txs months).length = months.length ∧
    (∀ i : Nat, ((monthRows txs months).get? i).map MonthSummaryS.Month = months.get? i) ∧
    (∀ mo ∈ months, (∀ tx ∈ txs, txInMonth tx mo = false) →
      mapLookup (aggregateByMonth txs months) mo = some (zeroMonthSummary mo)) ∧
    (∀ (pre post : List Transaction) (tx : Transaction),
      (parseDate tx.Date = none ∨
        ∀ dt, parseDate tx.Date = some dt → getMonthString dt ∉ months) →
      aggregateByMonth (pre ++ tx :: post) months = aggregateByMonth (pre ++ post) months) := by
  refine ⟨by simp [monthRows], ?_, ?_, ?_⟩
  · intro i
    rw [monthRows, List.get?_map]
    cases hi : months.get? i with
    | none => rfl
    | some mo =>
      show some ((mapLookup (aggregateByMonth txs months) mo).getD (zeroMonthSummary mo)).Month
        = some mo
      congr 1
      cases ho : mapLookup (aggregateByMonth txs months) mo with
      | none => simp [ho, zeroMonthSummary]
      | some s =>
        simp only [ho, Option.getD_some]
        exact monthEntriesOK_agg txs months mo s ho
  · intro mo hmo hnone
    rw [aggregateByMonth_eq_foldl,
      foldl_monthStep_lookup_not_in_month txs mo hnone (initMonths months)]
    exact mapLookup_initMonths_mem months mo hmo
  · intro pre post tx h
    rw [aggregateByMonth_eq_foldl, aggregateByMonth_eq_foldl, List.foldl_append,
      List.foldl_append, List.foldl_cons]
    congr 1
    have hkeys : monthKeysIn (pre.foldl monthStep (initMonths months)) months :=
      monthKeysIn_foldl pre months (initMonths months)
        (fun k hk => mapLookup_initMonths_not_mem months k hk)
    exact congrArg (fun acc => acc) (monthStep_skipped _ months tx hkeys h)

/-- C4 witness: with months [2024-01, 2024-02] and one January transaction
plus one with an unparseable date, the row list pairs up with the supplied
months in order, February stays zero, and the malformed transaction is a
no-op. -/
theorem C4_witness :
    (monthRows [txTemplate] ["2024-01", "2024-02"]).length = 2 ∧
    ((monthRows [txTemplate] ["2024-01", "2024-02"]).get? 1).map MonthSummaryS.Month =
      some "2024-02" ∧
    mapLookup (aggregateByMonth [txTemplate] ["2024-01", "2024-02"]) "2024-02" =
      some (zeroMonthSummary "2024-02") ∧
    aggregateByMonth [txTemplate, { txTemplate with Date := "not-a-date" }] ["2024-01", "2024-02"] =
      aggregateByMonth [txTemplate] ["2024-01", "2024-02"] := by
  obtain ⟨h1, h2, h3, h4⟩ := C4_month_buckets [txTemplate] ["2024-01", "2024-02"]
  refine ⟨h1, h2 1, h3 "2024-02" (by decide) ?_, ?_⟩
  · intro tx htx
    have he : tx = txTemplate := by simpa using htx
    subst he
    decide
  · exact (C4_month_buckets [txTemplate] ["2024-01", "2024-02"]).2.2.2 [txTemplate] []
      { txTemplate with Date := "not-a-date" } (Or.inl (by decide))

/-- C5: date-range validation fails exactly when an endpoint does not parse
as a YYYY-MM-DD calendar date, the end precedes the start, or the span
exceeds 730 days (equal endpoints pass); and when it fails, the
get_spending_by_category and get_payee_summary handlers surface the
validation error without consuming the fetch (no network call). -/
theorem C5_date_range_validation (s u : String) :
    (validateDateRange s u = none ↔
      ∃ ds du, parseDate s = some ds ∧ parseDate u = some du ∧
        dayNumber ds ≤ dayNumber du ∧ dayNumber du - dayNumber ds ≤ 730) ∧
    (∀ e : DateRangeError, validateDateRange s u = some e →
      ∀ (b : String), b ≠ "" → s ≠ "" → u ≠ "" →
      ∀ (fetch : Except ClientError (List Transaction)) (topN : Option Int),
        getSpendingByCategory (some b) (some s) (some u) fetch =
          (.validationError e, false) ∧
        getPayeeSummary (some b) (some s) (some u) topN fetch =
          (.validationError e, false)) := by
  constructor
  · constructor
    · intro h
      cases hs : parseDate s with
      | none => rw [validateDateRange, hs] at h; cases h
      | some ds =>
        cases hu : parseDate u with
        | none => rw [validateDateRange, hs, hu] at h; cases h
        | some du =>
          simp only [validateDateRange, hs, hu] at h
          by_cases h1 : dayNumber du < dayNumber ds
          · rw [if_pos h1] at h; cases h
          · rw [if_neg h1] at h
            by_cases h2 : 730 < dayNumber du - dayNumber ds
            · rw [if_pos h2] at h; cases h
            · exact ⟨ds, du, rfl, rfl, Nat.le_of_not_lt h1, Nat.le_of_not_lt h2⟩
    · rintro ⟨ds, du, hs, hu, h1, h2⟩
      simp only [validateDateRange, hs, hu]
      rw [if_neg (Nat.not_lt.mpr h1), if_neg (Nat.not_lt.mpr h2)]
  · intro e he b hb hs hu fetch topN
    constructor
    · simp [getSpendingByCategory, hb, hs, hu, he]
    · simp [getPayeeSummary, hb, hs, hu, he]

/-- C5 witness: end-before-start and over-730-day ranges are rejected, equal
endpoints are accepted, and a rejected range short-circuits both handlers
before any fetch. -/
theorem C5_witness :
    validateDateRange "2024-01-01" "2024-01-01" = none ∧
    validateDateRange "2024-06-01" "2024-01-01" = some DateRangeError.untilBeforeSince ∧
    validateDateRange "2022-01-01" "2024-06-01" = some DateRangeError.rangeTooLarge ∧
    getSpendingByCategory (some "budget") (some "2024-06-01") (some "2024-01-01")
      (Except.ok [txTemplate]) = (.validationError .untilBeforeSince, false) ∧
    getPayeeSummary (some "budget") (some "2022-01-01") (some "2024-06-01") (some 5)
      (Except.ok [txTemplate]) = (.validationError .rangeTooLarge, false) := by
  refine ⟨?_, by decide, by decide, ?_, ?_⟩
  · exact (C5_date_range_validation "2024-01-01" "2024-01-01").1.mpr
      ⟨⟨2024, 1, 1⟩, ⟨2024, 1, 1⟩, by decide, by decide, by decide, by decide⟩
  · exact ((C5_date_range_validation "2024-06-01" "2024-01-01").2 .untilBeforeSince
      (by decide) "budget" (by decide) (by decide) (by decide) (Except.ok [txTemplate]) none).1
  · exact ((C5_date_range_validation "2022-01-01" "2024-06-01").2 .rangeTooLarge
      (by decide) "budget" (by decide) (by decide) (by decide) (Except.ok [txTemplate]) (some 5)).2

/-- C6 counterexample: under the real float64 semantics the round trip
fails at the 3-decimal display amount 1.015 (exactly 203/200; its nearest
double is 4571153621781053/2^52).  The float64 product 1.015 * 1000 rounds
to 1014.9999999999999 (below the exact product 1015, which is also what
floor would give), the int64 cast truncates it to 1014, and converting 1014
milliunits back yields the double nearest 1.014 — not the input, whether
the input is read as the double representing 1.015 or as 1.015 itself. -/
theorem C6_float64_counterexample :
    FloatToMilliunits64 (round64 (mkRat 203 200)) = 1014 ∧
    (203 / 200 : ℚ) * 1000 = 1015 ∧
    round64 (mkRat 203 200) = mkRat 4571153621781053 4503599627370496 ∧
    MilliunitsToFloat64 1014 = mkRat 4566650022153683 4503599627370496 ∧
    MilliunitsToFloat64 (FloatToMilliunits64 (round64 (mkRat 203 200))) ≠
      round64 (mkRat 203 200) ∧
    MilliunitsToFloat64 (FloatToMilliunits64 (round64 (mkRat 203 200))) ≠ mkRat 203 200 := by
  refine ⟨?_, by norm_num, by decide, by decide, ?_, ?_⟩
  · rw [FloatToMilliunits64_eval]
    decide
  · rw [FloatToMilliunits64_eval]
    decide
  · rw [FloatToMilliunits64_eval]
    decide

/-- C6 (amended): the round-trip equation holds for every display amount
x = k/1000 under exact arithmetic — FloatToMilliunits recovers k, agrees
with floor(x*1000) there, and MilliunitsToFloat maps back to x — and in the
faithful float64 model the spec example 45.67 still round-trips
(45.67 → 45670 → 45.67); but float64 rounding breaks exactness for some
3-decimal amounts, e.g. 1.015 (see the counterexample). -/
theorem C6_round_trip_amended :
    (∀ k : Int,
      FloatToMilliunits ((k : ℚ) / 1000) = k ∧
      FloatToMilliunits ((k : ℚ) / 1000) = ⌊(k : ℚ) / 1000 * 1000⌋ ∧
      MilliunitsToFloat (FloatToMilliunits ((k : ℚ) / 1000)) = (k : ℚ) / 1000) ∧
    FloatToMilliunits (4567 / 100) = 45670 ∧
    MilliunitsToFloat 45670 = 4567 / 100 ∧
    FloatToMilliunits64 (round64 (mkRat 4567 100)) = 45670 ∧
    MilliunitsToFloat64 (FloatToMilliunits64 (round64 (mkRat 4567 100))) =
      round64 (mkRat 4567 100) := by
  have key : ∀ k : Int, FloatToMilliunits ((k : ℚ) / 1000) = k := by
    intro k
    have hm : (k : ℚ) / 1000 * 1000 = (k : ℚ) := by
      rw [div_mul_cancel₀]
      norm_num
    rw [FloatToMilliunits, hm, truncRat]
    simp
  refine ⟨fun k => ⟨key k, ?_, ?_⟩, ?_, ?_, ?_, ?_⟩
  · have hm : (k : ℚ) / 1000 * 1000 = (k : ℚ) := by
      rw [div_mul_cancel₀]
      norm_num
    rw [key k, hm, Int.floor_intCast]
  · rw [key k, MilliunitsToFloat]
  · have h := key 45670
    have he : ((45670 : Int) : ℚ) / 1000 = 4567 / 100 := by norm_num
    rw [he] at h
    simpa using h
  · rw [MilliunitsToFloat]
    norm_num
  · rw [FloatToMilliunits64_eval]
    decide
  · rw [FloatToMilliunits64_eval]
    decide

theorem balances_foldl (accounts : List Account) :
    ∀ (rows : List AccountBalanceS) (onb offb : ℚ),
      accounts.foldl balancesStep (rows, onb, offb) =
        (rows ++ (accounts.filter fun a => !a.Deleted).map toAccountBalance,
         onb + ((accounts.filter fun a => !a.Deleted && !a.Closed && a.OnBudget).map
           fun a => MilliunitsToFloat a.Balance).sum,
         offb + ((accounts.filter fun a => !a.Deleted && !a.Closed && !a.OnBudget).map
           fun a => MilliunitsToFloat a.Balance).sum) := by
  induction accounts with
  | nil => intro rows onb offb; simp
  | cons a rest ih =>
    intro rows onb offb
    rw [List.foldl_cons]
    cases hd : a.Deleted with
    | true =>
      simp only [balancesStep, hd, if_pos rfl, ih]
      simp [List.filter_cons, hd]
    | false =>
      cases hc : a.Closed with
      | true =>
        simp only [balancesStep, hd, hc]
        simp only [Bool.true_eq_false, if_false, Bool.not_true, Bool.false_eq_true, if_neg]
        rw [ih]
        simp [List.filter_cons, hd, hc]
      | false =>
        cases hb : a.OnBudget with
        | true =>
          simp only [balancesStep, hd, hc, hb]
          simp only [Bool.false_eq_true, if_false, Bool.not_false, if_pos, if_true]
          rw [ih]
          simp [List.filter_cons, hd, hc, hb, toAccountBalance, add_assoc]
        | false =>
          simp only [balancesStep, hd, hc, hb]
          simp only [Bool.false_eq_true, if_false, Bool.not_false, if_pos, if_true]
          rw [ih]
          simp [List.filter_cons, hd, hc, hb, toAccountBalance, add_assoc]

/-- Accounts of the spec scenario for C7. -/
def accTemplate : Account :=
  { ID := "A"
    Name := "Account"
    «Type» := "checking"
    OnBudget := true
    Closed := false
    Note := ""
    Balance := 0
    ClearedBalance := 0
    UnclearedBalance := 0
    TransferPayeeID := ""
    DirectImportLinked := false
    DirectImportInError := false
    Deleted := false }

def accA : Account := { accTemplate with ID := "A", Balance := 100000 }

def accB : Account := { accTemplate with ID := "B", Balance := 50000, OnBudget := false }

def accC : Account := { accTemplate with ID := "C", Balance := 99999, Closed := true }

/-- C7: the balances snapshot lists every non-deleted account with its three
balances divided by 1000, totals only non-closed accounts split by the
OnBudget flag, and reports net worth as their sum; on the spec scenario
accounts A, B, C it yields 100, 50 and 150, with closed C still listed at
99.999. -/
theorem C7_account_balances (accounts : List Account) :
    (getAccountBalances accounts).accounts =
      (accounts.filter fun a => !a.Deleted).map toAccountBalance ∧
    (getAccountBalances accounts).totalOnBudget =
      ((accounts.filter fun a => !a.Deleted && !a.Closed && a.OnBudget).map
        fun a => MilliunitsToFloat a.Balance).sum ∧
    (getAccountBalances accounts).totalOffBudget =
      ((accounts.filter fun a => !a.Deleted && !a.Closed && !a.OnBudget).map
        fun a => MilliunitsToFloat a.Balance).sum ∧
    (getAccountBalances accounts).netWorth =
      (getAccountBalances accounts).totalOnBudget +
        (getAccountBalances accounts).totalOffBudget ∧
    (getAccountBalances [accA, accB, accC]).totalOnBudget = 100 ∧
    (getAccountBalances [accA, accB, accC]).totalOffBudget = 50 ∧
    (getAccountBalances [accA, accB, accC]).netWorth = 150 ∧
    (getAccountBalances [accA, accB, accC]).accounts.map AccountBalanceS.CurrentBalance =
      [100, 50, 99999 / 1000] := by
  have h := balances_foldl accounts [] 0 0
  refine ⟨?_, ?_, ?_, rfl, ?_, ?_, ?_, ?_⟩
  · rw [getAccountBalances, h]
    simp
  · rw [getAccountBalances, h]
    simp
  · rw [getAccountBalances, h]
    simp
  · norm_num [getAccountBalances, balancesStep, accA, accB, accC, accTemplate,
      toAccountBalance, MilliunitsToFloat]
  · norm_num [getAccountBalances, balancesStep, accA, accB, accC, accTemplate,
      toAccountBalance, MilliunitsToFloat]
  · norm_num [getAccountBalances, balancesStep, accA, accB, accC, accTemplate,
      toAccountBalance, MilliunitsToFloat]
  · norm_num [getAccountBalances, balancesStep, accA, accB, accC, accTemplate,
      toAccountBalance, MilliunitsToFloat]

/-- C2: every call makes at most 3 attempts and sleeps exactly 2^(attempt-1)
seconds before each retry; transient failures (network failure, body-read
failure, HTTP 429) on attempts 1 and 2 followed by a clean success on
attempt 3 yield the successful result after backoffs of 1s then 2s; and
three transient failures surface the last transient error wrapped with the
attempt ceiling. -/
theorem C2_retry_policy :
    (∀ (o : Nat → AttemptOutcome) (w : Bool),
      (doRequest o w).attempts ≤ 3 ∧
      (doRequest o w).sleeps =
        (List.range ((doRequest o w).attempts - 1)).map fun i => 2 ^ i) ∧
    (∀ (o : Nat → AttemptOutcome) (w : Bool) (e0 e1 : TransientError),
      classifyAttempt w (o 0) = .transient e0 →
      classifyAttempt w (o 1) = .transient e1 →
      classifyAttempt w (o 2) = .terminal .ok →
      doRequest o w = ⟨.ok, [1, 2], 3⟩) ∧
    (∀ (o : Nat → AttemptOutcome) (w : Bool) (e0 e1 e2 : TransientError),
      classifyAttempt w (o 0) = .transient e0 →
      classifyAttempt w (o 1) = .transient e1 →
      classifyAttempt w (o 2) = .transient e2 →
      doRequest o w = ⟨.exhausted 3 (some e2), [1, 2], 3⟩) := by
  refine ⟨?_, ?_, ?_⟩
  · intro o w
    cases h0 : classifyAttempt w (o 0) with
    | terminal r0 => simp [doRequest, runAttempts, h0]
    | transient e0 =>
      cases h1 : classifyAttempt w (o 1) with
      | terminal r1 => simp [doRequest, runAttempts, h0, h1, List.range_succ]
      | transient e1 =>
        cases h2 : classifyAttempt w (o 2) with
        | terminal r2 => simp [doRequest, runAttempts, h0, h1, h2, List.range_succ]
        | transient e2 => simp [doRequest, runAttempts, h0, h1, h2, List.range_succ]
  · intro o w e0 e1 h0 h1 h2
    simp [doRequest, runAttempts, h0, h1, h2]
  · intro o w e0 e1 e2 h0 h1 h2
    simp [doRequest, runAttempts, h0, h1, h2, maxRetries]

/-- C2 witness: network failure then read failure then a clean 200 gives the
success after sleeps 1s and 2s; a network failure, a 429 and another network
failure exhaust the budget and wrap the last transient error with the
attempt count 3. -/
theorem C2_witness :
    doRequest (fun i => if i = 0 then .netFail else if i = 1 then .readFail
      else .resp 200 none true) false = ⟨.ok, [1, 2], 3⟩ ∧
    doRequest (fun i => if i ≤ 1 then .netFail else .resp 429 none true) false =
      ⟨.exhausted 3 (some .rateLimited), [1, 2], 3⟩ := by
  constructor
  · exact (C2_retry_policy.2.1 _ false .requestFailed .readFailed
      (by decide) (by decide) (by decide))
  · exact (C2_retry_policy.2.2 _ false .requestFailed .requestFailed .rateLimited
      (by decide) (by decide) (by decide))

/-- C3: an HTTP response with status ≥ 400 other than 429 on the first
attempt ends the call at once: one attempt, no backoff sleeps, and the
surfaced error carries the parsed non-empty detail text when present,
otherwise the bare numeric status. -/
theorem C3_terminal_http_error (o : Nat → AttemptOutcome) (w : Bool) (status : Nat)
    (d : Option String) (bp : Bool)
    (h400 : 400 ≤ status) (h429 : status ≠ 429) (h0 : o 0 = .resp status d bp) :
    (doRequest o w).attempts = 1 ∧
    (doRequest o w).sleeps = [] ∧
    (∀ dd : String, d = some dd → dd ≠ "" → (doRequest o w).result = .apiError status dd) ∧
    ((d = none ∨ d = some "") → (doRequest o w).result = .apiErrorStatus status) := by
  cases hd : d with
  | none =>
    have hclass : classifyAttempt w (o 0) = .terminal (.apiErrorStatus status) := by
      rw [h0]
      simp [classifyAttempt, h429, h400, hd]
    refine ⟨?_, ?_, ?_, ?_⟩ <;> simp [doRequest, runAttempts, hclass]
  | some dd =>
    by_cases he : dd = ""
    · have hclass : classifyAttempt w (o 0) = .terminal (.apiErrorStatus status) := by
        rw [h0]
        simp [classifyAttempt, h429, h400, hd, he]
      refine ⟨?_, ?_, ?_, ?_⟩
      · simp [doRequest, runAttempts, hclass]
      · simp [doRequest, runAttempts, hclass]
      · intro dd2 hdd2 hne
        cases hdd2
        exact absurd he hne
      · intro _
        simp [doRequest, runAttempts, hclass]
    · have hclass : classifyAttempt w (o 0) = .terminal (.apiError status dd) := by
        rw [h0]
        simp [classifyAttempt, h429, h400, hd, he]
      refine ⟨?_, ?_, ?_, ?_⟩
      · simp [doRequest, runAttempts, hclass]
      · simp [doRequest, runAttempts, hclass]
      · intro dd2 hdd2 _
        cases hdd2
        simp [doRequest, runAttempts, hclass]
      · intro hcontra
        rcases hcontra with hc | hc
        · cases hc
        · cases hc
          exact absurd rfl he

/-- C3 witness: a 404 whose body parses to detail "transaction not found" is
surfaced with that detail after a single attempt and no sleeps. -/
theorem C3_witness :
    (doRequest (fun _ => .resp 404 (some "transaction not found") true) true).attempts = 1 ∧
    (doRequest (fun _ => .resp 404 (some "transaction not found") true) true).sleeps = [] ∧
    (doRequest (fun _ => .resp 404 (some "transaction not found") true) true).result =
      .apiError 404 "transaction not found" := by
  obtain ⟨h1, h2, h3, _⟩ := C3_terminal_http_error
    (fun _ => .resp 404 (some "transaction not found") true) true 404
    (some "transaction not found") true (by decide) (by decide) rfl
  exact ⟨h1, h2, h3 "transaction not found" rfl (by decide)⟩

/-- C8: the get-single operations propagate the list call's transport/HTTP
error unchanged, surface a dedicated not-found error carrying the requested
ID when no entity matches (a constructor disjoint from every transport
error), and return a matching entity whenever one is present in the list,
with no filtering of soft-deleted entities. -/
theorem C8_get_single_lookup :
    (∀ (e : ClientError) (id : String),
      GetPayee (.error e) id = .error e ∧
      GetAccount (.error e) id = .error e ∧
      GetCategory (.error e) id = .error e) ∧
    (∀ (entity id : String) (r : ReqResult),
      ClientError.notFound entity id ≠ ClientError.fromRequest r) ∧
    (∀ (payees : List Payee) (id : String),
      ((∀ p ∈ payees, p.ID ≠ id) →
        GetPayee (.ok payees) id = .error (.notFound "payee" id)) ∧
      ((∃ p ∈ payees, p.ID = id) →
        ∃ q ∈ payees, q.ID = id ∧ GetPayee (.ok payees) id = .ok q)) ∧
    (∀ (accounts : List Account) (id : String),
      ((∀ a ∈ accounts, a.ID ≠ id) →
        GetAccount (.ok accounts) id = .error (.notFound "account" id)) ∧
      ((∃ a ∈ accounts, a.ID = id) →
        ∃ q ∈ accounts, q.ID = id ∧ GetAccount (.ok accounts) id = .ok q)) ∧
    (∀ (groups : List CategoryGroup) (id : String),
      ((∀ g ∈ groups, ∀ c ∈ g.Categories, c.ID ≠ id) →
        GetCategory (.ok groups) id = .error (.notFound "category" id)) ∧
      ((∃ g ∈ groups, ∃ c ∈ g.Categories, c.ID = id) →
        ∃ q : Category, (∃ g ∈ groups, q ∈ g.Categories) ∧ q.ID = id ∧
          GetCategory (.ok groups) id = .ok q)) := by
  refine ⟨fun e id => ⟨rfl, rfl, rfl⟩, ?_, ?_, ?_, ?_⟩
  · intro entity id r h
    cases h
  · intro payees id
    constructor
    · intro h
      have hfind : payees.find? (fun p => p.ID == id) = none := by
        rw [List.find?_eq_none]
        intro p hp
        simp [h p hp]
      simp [GetPayee, hfind]
    · rintro ⟨p, hp, hpid⟩
      have hsome : (payees.find? (fun p => p.ID == id)).isSome := by
        rw [List.find?_isSome]
        exact ⟨p, hp, by simp [hpid]⟩
      obtain ⟨q, hq⟩ := Option.isSome_iff_exists.mp hsome
      refine ⟨q, List.mem_of_find?_eq_some hq, ?_, by simp [GetPayee, hq]⟩
      have := List.find?_some hq
      simpa using this
  · intro accounts id
    constructor
    · intro h
      have hfind : accounts.find? (fun a => a.ID == id) = none := by
        rw [List.find?_eq_none]
        intro a ha
        simp [h a ha]
      simp [GetAccount, hfind]
    · rintro ⟨a, ha, haid⟩
      have hsome : (accounts.find? (fun a => a.ID == id)).isSome := by
        rw [List.find?_isSome]
        exact ⟨a, ha, by simp [haid]⟩
      obtain ⟨q, hq⟩ := Option.isSome_iff_exists.mp hsome
      refine ⟨q, List.mem_of_find?_eq_some hq, ?_, by simp [GetAccount, hq]⟩
      have := List.find?_some hq
      simpa using this
  · intro groups id
    constructor
    · intro h
      have hfind : groups.findSome? (fun g => g.Categories.find? (fun c => c.ID == id)) = none := by
        rw [List.findSome?_eq_none]
        intro g hg
        rw [List.find?_eq_none]
        intro c hc
        simp [h g hg c hc]
      simp [GetCategory, hfind]
    · rintro ⟨g, hg, c, hc, hcid⟩
      have hinner : (g.Categories.find? (fun c => c.ID == id)).isSome := by
        rw [List.find?_isSome]
        exact ⟨c, hc, by simp [hcid]⟩
      obtain ⟨c0, hc0⟩ := Option.isSome_iff_exists.mp hinner
      cases hfind : groups.findSome? (fun g => g.Categories.find? (fun c => c.ID == id)) with
      | none =>
        rw [List.findSome?_eq_none] at hfind
        rw [hfind g hg] at hc0
        cases hc0
      | some q =>
        obtain ⟨g2, hg2, hq2⟩ := List.exists_of_findSome?_eq_some hfind
        refine ⟨q, ⟨g2, hg2, List.mem_of_find?_eq_some hq2⟩, ?_, by simp [GetCategory, hfind]⟩
        have := List.find?_some hq2
        simpa using this

/-- C8 witness: a soft-deleted payee is still returned by ID, a missing ID
yields the dedicated not-found error carrying it, and a transport error
passes through. -/
theorem C8_witness :
    GetPayee (.ok [{ ID := "p9", Name := "Old", TransferAccountID := "", Deleted := true }])
      "p9" = .ok { ID := "p9", Name := "Old", TransferAccountID := "", Deleted := true } ∧
    GetPayee (.ok [{ ID := "p9", Name := "Old", TransferAccountID := "", Deleted := true }])
      "p0" = .error (.notFound "payee" "p0") ∧
    GetPayee (.error (.fromRequest (.exhausted 3 (some .rateLimited)))) "p9" =
      .error (.fromRequest (.exhausted 3 (some .rateLimited))) := by
  refine ⟨?_, ?_, (C8_get_single_lookup.1 (.fromRequest (.exhausted 3 (some .rateLimited))) "p9").1⟩
  · obtain ⟨q, hqmem, hqid, hqres⟩ := (C8_get_single_lookup.2.2.1
      [{ ID := "p9", Name := "Old", TransferAccountID := "", Deleted := true }] "p9").2
      ⟨_, List.mem_singleton.mpr rfl, rfl⟩
    have hq : q = { ID := "p9", Name := "Old", TransferAccountID := "", Deleted := true } := by
      simpa using hqmem
    rw [hq] at hqres
    exact hqres
  · exact (C8_get_single_lookup.2.2.1
      [{ ID := "p9", Name := "Old", TransferAccountID := "", Deleted := true }] "p0").1
      (by decide)

/-! ### Payee-summary lemmas (for C9) -/

/-- A payee step never discards an existing bucket. -/
theorem payeeStep_lookup_isSome (acc : List (String × PayeeSummaryS)) (tx : Transaction)
    (k : String) (h : (mapLookup acc k).isSome) :
    (mapLookup (payeeStep acc tx) k).isSome := by
  by_cases ht : isTransfer tx = true
  · simpa [payeeStep, ht] using h
  · by_cases hd : tx.Deleted = true
    · simpa [payeeStep, ht, hd] using h
    · simp only [payeeStep, ht, hd, Bool.false_eq_true, if_false]
      by_cases he : k = (if tx.PayeeID = "" then "no-payee" else tx.PayeeID)
      · rw [he, mapLookup_mapUpsert_self]
        rfl
      · rw [mapLookup_mapUpsert_ne _ _ _ _ _ he]
        exact h

theorem foldl_payeeStep_lookup_isSome (txs : List Transaction) (k : String) :
    ∀ acc, (mapLookup acc k).isSome → (mapLookup (txs.foldl payeeStep acc) k).isSome := by
  induction txs with
  | nil => intro acc h; exact h
  | cons tx rest ih =>
    intro acc h
    rw [List.foldl_cons]
    exact ih _ (payeeStep_lookup_isSome acc tx k h)

/-- Every binding under the synthetic no-payee key advertises the synthetic
ID and the display name "No Payee". -/
def noPayeeEntryOK (acc : List (String × PayeeSummaryS)) : Prop :=
  ∀ s, mapLookup acc "no-payee" = some s → s.PayeeID = "no-payee" ∧ s.PayeeName = "No Payee"

theorem noPayeeEntryOK_step (acc : List (String × PayeeSummaryS)) (tx : Transaction)
    (h : noPayeeEntryOK acc) : noPayeeEntryOK (payeeStep acc tx) := by
  by_cases ht : isTransfer tx = true
  · simpa [payeeStep, ht] using h
  · by_cases hd : tx.Deleted = true
    · simpa [payeeStep, ht, hd] using h
    · intro s hs
      simp only [payeeStep, ht, hd, Bool.false_eq_true, if_false] at hs
      by_cases he : ("no-payee" : String) = (if tx.PayeeID = "" then "no-payee" else tx.PayeeID)
      · rw [← he, mapLookup_mapUpsert_self] at hs
        cases ho : mapLookup acc "no-payee" with
        | none =>
          rw [ho] at hs
          cases hs
          constructor
          · simp [accumulatePayee]
          · simp [accumulatePayee]
        | some s0 =>
          rw [ho] at hs
          cases hs
          obtain ⟨h1, h2⟩ := h s0 ho
          exact ⟨by simpa [accumulatePayee] using h1, by simpa [accumulatePayee] using h2⟩
      · rw [mapLookup_mapUpsert_ne _ _ _ _ _ he] at hs
        exact h s hs

theorem noPayeeEntryOK_agg (txs : List Transaction) : noPayeeEntryOK (aggregateByPayee txs) := by
  have main : ∀ (l : List Transaction) (acc : List (String × PayeeSummaryS)),
      noPayeeEntryOK acc → noPayeeEntryOK (l.foldl payeeStep acc) := by
    intro l
    induction l with
    | nil => intro acc hacc; exact hacc
    | cons tx rest ih =>
      intro acc hacc
      rw [List.foldl_cons]
      exact ih _ (noPayeeEntryOK_step acc tx hacc)
  exact main txs [] (fun s hs => by cases hs)

theorem sorted_payeeRows (txs : List Transaction) (topN : Option Int) :
    List.Sorted payeeOutflowGE (payeeRows txs topN) := by
  have hs : List.Sorted payeeOutflowGE
      (List.insertionSort payeeOutflowGE ((aggregateByPayee txs).map Prod.snd)) :=
    List.sorted_insertionSort payeeOutflowGE _
  rw [payeeRows]
  split
  · exact List.Pairwise.sublist (List.take_sublist _ _) hs
  · exact hs

/-- C9 (amended): the payee summary is sorted descending by total outflow
and truncated to at most N buckets, where N defaults to 20 when top_n is
absent and a supplied value below 1 falls back to the default 20 (never a
clamp to 1), so the effective N is always at least 1; the empty payee ID is
mapped to the synthetic bucket with ID "no-payee" and display name
"No Payee". -/
theorem C9_payee_summary_top_n (txs : List Transaction) (topN : Option Int) :
    List.Sorted payeeOutflowGE (payeeRows txs topN) ∧
    (payeeRows txs topN).length ≤ (effectiveTopN topN).toNat ∧
    effectiveTopN none = 20 ∧
    (∀ t : Int, t < 1 → effectiveTopN (some t) = 20) ∧
    (∀ t : Int, 1 ≤ t → effectiveTopN (some t) = t) ∧
    1 ≤ effectiveTopN topN ∧
    ((∃ tx ∈ txs, isTransfer tx = false ∧ tx.Deleted = false ∧ tx.PayeeID = "") →
      ∃ s, mapLookup (aggregateByPayee txs) "no-payee" = some s ∧
        s.PayeeID = "no-payee" ∧ s.PayeeName = "No Payee") := by
  refine ⟨sorted_payeeRows txs topN, ?_, rfl, ?_, ?_, ?_, ?_⟩
  · rw [payeeRows]
    split
    · simpa using Nat.le_of_lt (by assumption)
    · exact Nat.le_of_not_lt (by assumption)
  · intro t ht
    simp [effectiveTopN, ht]
  · intro t ht
    simp [effectiveTopN, Int.not_lt.mpr ht]
  · cases topN with
    | none => decide
    | some t =>
      by_cases ht : t < 1
      · simp [effectiveTopN, ht]
      · simpa [effectiveTopN, ht] using Int.not_lt.mp ht
  · rintro ⟨tx, htx, ht, hd, hp⟩
    obtain ⟨pre, post, rfl⟩ := List.append_of_mem htx
    have hstep : (mapLookup (payeeStep (pre.foldl payeeStep []) tx) "no-payee").isSome := by
      simp [payeeStep, ht, hd, hp, mapLookup_mapUpsert_self]
    have hsome : (mapLookup (aggregateByPayee (pre ++ tx :: post)) "no-payee").isSome := by
      rw [aggregateByPayee, List.foldl_append, List.foldl_cons]
      exact foldl_payeeStep_lookup_isSome post "no-payee" _ hstep
    obtain ⟨s, hs⟩ := Option.isSome_iff_exists.mp hsome
    obtain ⟨h1, h2⟩ := noPayeeEntryOK_agg (pre ++ tx :: post) s hs
    exact ⟨s, hs, h1, h2⟩

/-- C9 counterexample to the claim as stated: with top_n supplied as 0 the
handler does not clamp the effective N to 1 — it falls back to the default
20 — so two payee buckets survive where a minimum-1 clamp would allow one. -/
theorem C9_counterexample :
    (payeeRows [txTemplate,
      { txTemplate with PayeeID := "p2", PayeeName := "Rent", Amount := -10000 }]
      (some 0)).length = 2 ∧
    ¬ ((payeeRows [txTemplate,
      { txTemplate with PayeeID := "p2", PayeeName := "Rent", Amount := -10000 }]
      (some 0)).length ≤ (max 1 (0 : Int)).toNat) := by
  have hagg : ((aggregateByPayee [txTemplate,
      { txTemplate with PayeeID := "p2", PayeeName := "Rent", Amount := -10000 }]).map
      Prod.snd).length = 2 := by
    rw [aggregateByPayee]
    simp [payeeStep, mapUpsert, isTransfer, txTemplate]
  have h2 : (payeeRows [txTemplate,
      { txTemplate with PayeeID := "p2", PayeeName := "Rent", Amount := -10000 }]
      (some 0)).length = 2 := by
    rw [payeeRows]
    simp only [List.length_insertionSort, hagg]
    rw [if_neg (by decide)]
    rw [List.length_insertionSort, hagg]
  refine ⟨h2, ?_⟩
  rw [h2]
  decide

/-- C9 witness: with one empty-payee transaction and top_n absent, the
effective N is 20, the output is the single synthetic bucket, and it is
named "No Payee". -/
theorem C9_witness :
    effectiveTopN none = 20 ∧
    1 ≤ effectiveTopN (some 0) ∧
    (∃ s, mapLookup (aggregateByPayee [{ txTemplate with PayeeID := "" }]) "no-payee" = some s ∧
      s.PayeeID = "no-payee" ∧ s.PayeeName = "No Payee") := by
  obtain ⟨hsorted, hlen, hdef, hlow, hhigh, hone, hbucket⟩ :=
    C9_payee_summary_top_n [{ txTemplate with PayeeID := "" }] none
  exact ⟨hdef, (C9_payee_summary_top_n [] (some 0)).2.2.2.2.2.1,
    hbucket ⟨{ txTemplate with PayeeID := "" }, List.mem_singleton.mpr rfl, rfl, rfl, rfl⟩⟩

end YnabMCP
